import Mathlib

/-!
Verification of the job-matching and recommendation engine of the
intelligent-job-assistant repository (`src/ai_agent/recommendations.py`,
data model in `src/models/job.py`).

The Python code is shallowly embedded: strings are Lean `String`s
(processed as `List Char`), Python floats are `ℚ`, fallible code is
`Except`-valued, and the small regular expressions used by the source are
executed by a fuel-based backtracking token matcher defined below.
Character classes are modelled over their ASCII meaning, which is the
range exercised by the source's fixed keyword vocabularies.
-/

/-! ## Python string primitives -/

/-- Python `str.lower()` on a character list (ASCII case mapping). -/
def lowerL (l : List Char) : List Char := l.map Char.toLower

/-- Python `str.lower()` on a string. -/
def pyLower (s : String) : String := String.mk (lowerL s.toList)

/-- Python substring test `needle in hay`. -/
def pyIn (needle : List Char) : List Char → Bool
  | [] => needle.isEmpty
  | c :: t => needle.isPrefixOf (c :: t) || pyIn needle t

/-- Python `str.strip()`: drop whitespace from both ends. -/
def pyStrip (l : List Char) : List Char :=
  ((l.dropWhile Char.isWhitespace).reverse.dropWhile Char.isWhitespace).reverse

/-- Helper for `pyTitle`: the boolean records whether the previous
character was alphabetic. -/
def pyTitleAux : Bool → List Char → List Char
  | _, [] => []
  | prevAlpha, c :: t =>
    (if c.isAlpha then (if prevAlpha then c.toLower else c.toUpper) else c)
      :: pyTitleAux c.isAlpha t

/-- Python `str.title()`: first letter of every alphabetic run is
uppercased, the rest lowercased. -/
def pyTitle (l : List Char) : List Char := pyTitleAux false l

/-- Helper for `pySplitWS`: accumulates the current (reversed) word. -/
def splitWSAux : List Char → List Char → List (List Char)
  | [], cur => if cur.isEmpty then [] else [cur.reverse]
  | c :: t, cur =>
    if c.isWhitespace then
      if cur.isEmpty then splitWSAux t [] else cur.reverse :: splitWSAux t []
    else splitWSAux t (c :: cur)

/-- Python `str.split()` with no argument: split on whitespace runs,
dropping empty fields. -/
def pySplitWS (l : List Char) : List (List Char) := splitWSAux l []

/-- Numeric value of a decimal digit string (Python `float` of a `\d+`
regex capture, which is always a digit run). -/
def digitsToNat (l : List Char) : Nat :=
  l.foldl (fun n c => 10 * n + (c.toNat - 48)) 0

/-! ## A small regex engine

The source uses `re.findall`/`re.search` with patterns built from literal
characters, `\s*`, `\s+` and a single greedy one-or-more character-class
capture group.  `matchToksF` is a backtracking matcher for that fragment
(greedy repetition, longest attempt first), structurally recursive on a
fuel argument so that the kernel can evaluate it; one fuel unit is spent
per pattern token, so `tokens.length + 1` fuel is always sufficient. -/

/-- Pattern tokens: a literal character, `\s*`, `\s+`, and a greedy
one-or-more capture over a character class. -/
inductive RTok where
  | lit : Char → RTok
  | wsStar : RTok
  | wsPlus : RTok
  | capPlus : (Char → Bool) → RTok

/-- Try `f k`, `f (k-1)`, ..., `f 0`, returning the first success
(greedy repetition: longest attempt first). -/
def tryDown (f : Nat → Option α) : Nat → Option α
  | 0 => f 0
  | k + 1 => (f (k + 1)).orElse fun _ => tryDown f k

/-- Try `f k`, `f (k-1)`, ..., `f 1`, returning the first success. -/
def tryDown1 (f : Nat → Option α) : Nat → Option α
  | 0 => none
  | k + 1 => (f (k + 1)).orElse fun _ => tryDown1 f k

/-- Match a token list at the start of `s`.  Returns the contents of the
capture group and the remaining input after the match. -/
def matchToksF : Nat → List RTok → List Char → Option (List Char × List Char)
  | 0, _, _ => none
  | _ + 1, [], s => some ([], s)
  | fuel + 1, .lit c :: ts, s =>
    match s with
    | [] => none
    | x :: s' => if x = c then matchToksF fuel ts s' else none
  | fuel + 1, .wsStar :: ts, s =>
    tryDown (fun k => matchToksF fuel ts (s.drop k))
      ((s.takeWhile Char.isWhitespace).length)
  | fuel + 1, .wsPlus :: ts, s =>
    tryDown1 (fun k => matchToksF fuel ts (s.drop k))
      ((s.takeWhile Char.isWhitespace).length)
  | fuel + 1, .capPlus cls :: ts, s =>
    tryDown1 (fun k => (matchToksF fuel ts (s.drop k)).map
        (fun r => (s.take k ++ r.1, r.2)))
      ((s.takeWhile cls).length)

/-- Match a token list at the start of `s` (sufficient fuel supplied). -/
def matchToks (ts : List RTok) (s : List Char) : Option (List Char × List Char) :=
  matchToksF (ts.length + 1) ts s

/-- Python `re.findall` (for a pattern with one capture group): scan the
input left to right, collecting the capture of every non-overlapping
match.  Every pattern sent here starts with a literal or a one-or-more
class, so each match consumes at least one character and fuel
`s.length + 1` is sufficient. -/
def findAllF (ts : List RTok) : Nat → List Char → List (List Char)
  | 0, _ => []
  | fuel + 1, s =>
    match matchToks ts s with
    | some (cap, rest) => cap :: findAllF ts fuel rest
    | none =>
      match s with
      | [] => []
      | _ :: tail => findAllF ts fuel tail

/-- `re.findall` wrapper with sufficient fuel. -/
def pyFindAll (ts : List RTok) (s : List Char) : List (List Char) :=
  findAllF ts (s.length + 1) s

/-- Literal part of a pattern, one token per character. -/
def litToks (w : String) : List RTok := w.toList.map RTok.lit

/-- The character class `[A-Za-z\s,]` of the location patterns. -/
def locClass (c : Char) : Bool := c.isAlpha || c.isWhitespace || c == ','

/-- The character class `\w` (ASCII: letters, digits, underscore). -/
def wordClass (c : Char) : Bool := c.isAlpha || c.isDigit || c == '_'

/-! ## Data model (`src/models/job.py`)

Only the fields read by the recommendation engine are modelled; the
bookkeeping fields (`posted_date`, `url`, `platform`, `salary`,
`job_type`, `remote_work`, timestamps) are never touched by it. -/

/-- `Job` (`models/job.py`): a scraped job posting. -/
structure Job where
  job_id : String
  title : String
  company : String
  location : String
  experience : String
  skills : List String
  description : String
deriving DecidableEq, Repr

/-- `JobRecommendation` (`models/job.py`): a scored, explained match. -/
structure JobRecommendation where
  job : Job
  score : ℚ
  rationale : String
  skills_match : List String
  location_match : Bool
deriving DecidableEq, Repr

namespace JobRecommender

/-! ## TextFeatureExtractor (`recommendations.py`, class `JobRecommender`) -/

/-- The fixed skill vocabulary of `extract_skills_from_text`. -/
def technical_skills : List String :=
  ["python", "java", "javascript", "typescript", "react", "angular", "vue",
   "node.js", "express", "django", "flask", "spring", "sql", "mongodb",
   "postgresql", "mysql", "aws", "azure", "gcp", "docker", "kubernetes",
   "git", "github", "jenkins", "ci/cd", "agile", "scrum", "jira",
   "machine learning", "ml", "ai", "artificial intelligence", "data science",
   "data analysis", "statistics", "r", "matlab", "tensorflow", "pytorch",
   "scikit-learn", "pandas", "numpy", "matplotlib", "seaborn",
   "html", "css", "bootstrap", "tailwind", "sass", "less",
   "php", "ruby", "go", "rust", "c++", "c#", ".net", "asp.net",
   "devops", "linux", "unix", "bash", "shell scripting", "powershell",
   "microservices", "api", "rest", "graphql", "soap", "xml", "json",
   "testing", "unit testing", "integration testing", "tdd", "bdd",
   "design patterns", "oop", "functional programming", "clean code"]

/-- The suffix patterns of `extract_skills_from_text`:
`(\w+)\s+programming`, `(\w+)\s+development`, `(\w+)\s+framework`,
`(\w+)\s+library`, `(\w+)\s+tool`, `(\w+)\s+technology`. -/
def skill_patterns : List (List RTok) :=
  [[.capPlus wordClass, .wsPlus] ++ litToks "programming",
   [.capPlus wordClass, .wsPlus] ++ litToks "development",
   [.capPlus wordClass, .wsPlus] ++ litToks "framework",
   [.capPlus wordClass, .wsPlus] ++ litToks "library",
   [.capPlus wordClass, .wsPlus] ++ litToks "tool",
   [.capPlus wordClass, .wsPlus] ++ litToks "technology"]

/-- `extract_skills_from_text` (lines 61-106): vocabulary substring scan
(each hit title-cased with `/` replaced by a space, exact-dedup), then the
suffix-pattern scan (dedup against the lowercased collected list), result
truncated to the first 20 entries. -/
def extract_skills_from_text (text : String) : List String :=
  let text_lower := lowerL text.toList
  let extracted_skills := technical_skills.foldl (fun acc skill =>
    if pyIn skill.toList text_lower then
      let clean_skill := pyTitle (skill.toList.map fun c => if c = '/' then ' ' else c)
      if acc.contains clean_skill then acc else acc ++ [clean_skill]
    else acc) []
  let extracted_skills := skill_patterns.foldl (fun acc pat =>
    (pyFindAll pat text_lower).foldl (fun acc mtch =>
      if (acc.map lowerL).contains mtch then acc else acc ++ [pyTitle mtch]) acc)
    extracted_skills
  (extracted_skills.take 20).map String.mk

/-- The labeled location patterns of `extract_preferred_locations`:
`location:\s*([A-Za-z\s,]+)`, `based\s+in\s+([A-Za-z\s,]+)`,
`from\s+([A-Za-z\s,]+)`, `willing\s+to\s+relocate\s+to\s+([A-Za-z\s,]+)`,
`preferred\s+location:\s*([A-Za-z\s,]+)`. -/
def location_patterns : List (List RTok) :=
  [litToks "location:" ++ [.wsStar, .capPlus locClass],
   litToks "based" ++ [.wsPlus] ++ litToks "in" ++ [.wsPlus, .capPlus locClass],
   litToks "from" ++ [.wsPlus, .capPlus locClass],
   litToks "willing" ++ [.wsPlus] ++ litToks "to" ++ [.wsPlus] ++
     litToks "relocate" ++ [.wsPlus] ++ litToks "to" ++ [.wsPlus, .capPlus locClass],
   litToks "preferred" ++ [.wsPlus] ++ litToks "location:" ++ [.wsStar, .capPlus locClass]]

/-- The fixed city list of `extract_preferred_locations`. -/
def common_cities : List String :=
  ["bangalore", "mumbai", "delhi", "pune", "hyderabad", "chennai",
   "kolkata", "noida", "gurgaon", "remote", "hybrid"]

/-- `extract_preferred_locations` (lines 144-175).  Note the source
compares the *lowercase* stripped capture against the stored
*title-cased* entries (`if location and location not in locations:
locations.append(location.title())`); the embedding reproduces this
exactly. -/
def extract_preferred_locations (text : String) : List String :=
  let text_lower := lowerL text.toList
  let locations := location_patterns.foldl (fun locations pat =>
    (pyFindAll pat text_lower).foldl (fun locations mtch =>
      let location := pyStrip mtch
      if location.isEmpty || locations.contains location then locations
      else locations ++ [pyTitle location]) locations) []
  let locations := common_cities.foldl (fun locations city =>
    if pyIn city.toList text_lower && !(locations.contains (pyTitle city.toList)) then
      locations ++ [pyTitle city.toList]
    else locations) locations
  (locations.take 5).map String.mk

/-! ## MatchScorer (`recommendations.py`, lines 247-333) -/

/-- `re.search(r"(\d+)[-+](\d+)?", s)` of `calculate_experience_match`:
leftmost digit run immediately followed by `-` or `+`, with an optional
second digit run.  The recursion tries each start position from the left,
exactly as the regex engine does; greedy `\d+` needs no backtracking here
because a shortened run would put a digit where `[-+]` must match. -/
def searchYears : List Char → Option (Nat × Option Nat)
  | [] => none
  | c :: rest =>
    if c.isDigit then
      let run := (c :: rest).takeWhile Char.isDigit
      let after := (c :: rest).dropWhile Char.isDigit
      match after with
      | d :: after2 =>
        if d = '-' || d = '+' then
          let run2 := after2.takeWhile Char.isDigit
          some (digitsToNat run, if run2.isEmpty then none else some (digitsToNat run2))
        else searchYears rest
      | [] => searchYears rest
    else searchYears rest

/-- The required-years derivation of `calculate_experience_match`
(lines 284-301): level keywords first, then the numeric range pattern
(midpoint, with a missing maximum defaulting to `min + 2`), else 5.0. -/
def job_required_years (job_experience : String) : ℚ :=
  let je := (pyLower job_experience).toList
  if pyIn "entry".toList je || pyIn "junior".toList je then 1
  else if pyIn "mid".toList je || pyIn "intermediate".toList je then 3
  else if pyIn "senior".toList je then 7
  else if pyIn "lead".toList je || pyIn "principal".toList je then 10
  else
    match searchYears job_experience.toList with
    | some (mn, mx) =>
      let min_years : ℚ := mn
      let max_years : ℚ := match mx with | some m => (m : ℚ) | none => min_years + 2
      (min_years + max_years) / 2
    | none => 5

/-- `calculate_experience_match` (lines 281-311).  The second branch
models the only reachable failure of the `try` block: when
`job_years = 0` and the candidate is below it, Python raises
`ZeroDivisionError` and the `except` returns 0.5. -/
def calculate_experience_match (resume_years : ℚ) (job_experience : String) : ℚ :=
  let job_years := job_required_years job_experience
  if job_years ≤ resume_years then 1
  else if job_years = 0 then 1/2
  else max 0 (1 - (job_years - resume_years) / job_years)

/-- `calculate_location_match` (lines 313-333): exact substring
preference 1.0, else word-level partial match 0.7, else the remote (1.0)
and hybrid (0.8) fallbacks, else 0.0. -/
def calculate_location_match (job_location : String) (preferred_locations : List String) : ℚ :=
  let job_location_lower := (pyLower job_location).toList
  if preferred_locations.any fun p => pyIn (pyLower p).toList job_location_lower then 1
  else if preferred_locations.any fun p =>
      (pySplitWS (pyLower p).toList).any fun w => pyIn w job_location_lower then 7/10
  else if preferred_locations.contains "remote" && pyIn "remote".toList job_location_lower then 1
  else if preferred_locations.contains "hybrid" && pyIn "hybrid".toList job_location_lower then 8/10
  else 0

/-- The skills sub-score of `calculate_job_match_score` (lines 258-260):
`skill_matches / len(skills) if skills else 0`, where `skill_matches`
counts the profile skills whose lowercasing occurs in the lowercased
`job.skills`. -/
def skill_score (skills job_skills : List String) : ℚ :=
  if skills.isEmpty then 0
  else ((skills.countP fun sk => (job_skills.map pyLower).contains (pyLower sk) : Nat) : ℚ)
        / (skills.length : ℚ)

/-- The description sub-score of `calculate_job_match_score`
(lines 275-276): the fraction of profile skills appearing (lowercased) as
substrings of the lowercased description. -/
def desc_score (skills : List String) (description : String) : ℚ :=
  if skills.isEmpty then 0
  else ((skills.countP fun sk => pyIn (pyLower sk).toList (pyLower description).toList : Nat) : ℚ)
        / (skills.length : ℚ)

/-- `calculate_job_match_score` (lines 247-279): weighted sum of the four
sub-scores, each added only when its inputs are truthy (non-empty lists
and strings; an experience-years value of `0.0` is falsy in Python),
capped at 1.0. -/
def calculate_job_match_score (job : Job) (skills : List String)
    (experience_years : Option ℚ) (preferred_locations : List String) : ℚ :=
  let score : ℚ := 0
  let score := if skills ≠ [] ∧ job.skills ≠ [] then
      score + skill_score skills job.skills * (4/10)
    else score
  let score := match experience_years with
    | some y =>
      if y ≠ 0 ∧ job.experience ≠ "" then
        score + calculate_experience_match y job.experience * (3/10)
      else score
    | none => score
  let score := if preferred_locations ≠ [] then
      score + calculate_location_match job.location preferred_locations * (2/10)
    else score
  let score := if skills ≠ [] ∧ job.description ≠ "" then
      score + desc_score skills job.description * (1/10)
    else score
  min score 1

/-! ## SimilarityRanker (`recommendations.py`, lines 451-479) -/

/-- `calculate_job_similarity` (lines 451-479): additive title, skills,
experience and location terms, capped at 1.0.  The skills term uses the
cardinality of the intersection of the lowercased skill sets, modelled by
deduplicating the lowercased first list and filtering by membership in
the lowercased second list. -/
def calculate_job_similarity (job1 job2 : Job) : ℚ :=
  let score : ℚ := 0
  let score := if pyLower job1.title = pyLower job2.title then score + 3/10
    else if (pySplitWS (pyLower job1.title).toList).any
        (fun w => pyIn w (pyLower job2.title).toList) then score + 2/10
    else score
  let score := if job1.skills ≠ [] ∧ job2.skills ≠ [] then
      let common_skills := ((job1.skills.map pyLower).dedup).filter
        fun s => (job2.skills.map pyLower).contains s
      if common_skills ≠ [] then
        score + 3/10 * ((common_skills.length : ℚ)
          / ((max job1.skills.length job2.skills.length : Nat) : ℚ))
      else score
    else score
  let score := if job1.experience ≠ "" ∧ job2.experience ≠ "" then
      if pyLower job1.experience = pyLower job2.experience then score + 2/10
      else if (["senior", "lead"].any fun lv => pyIn lv.toList (pyLower job1.experience).toList)
          ∧ (["senior", "lead"].any fun lv => pyIn lv.toList (pyLower job2.experience).toList) then
        score + 15/100
      else score
    else score
  let score := if pyLower job1.location = pyLower job2.location then score + 2/10 else score
  min score 1

/-! ## RecommendationEngine (`recommendations.py`, lines 208-245, 335-372) -/

/-- `generate_match_rationale` (lines 335-372): semicolon-joined list of
independently collected reasons, with a generic fallback. -/
def generate_match_rationale (job : Job) (skills : List String)
    (experience_years : Option ℚ) (preferred_locations : List String) : String :=
  let reasons : List String := []
  let reasons := if skills ≠ [] ∧ job.skills ≠ [] then
      let matching_skills := skills.filter
        fun sk => (job.skills.map pyLower).contains (pyLower sk)
      if matching_skills ≠ [] then
        reasons ++ ["Skills match: " ++ String.intercalate ", " (matching_skills.take 3)]
      else reasons
    else reasons
  let reasons := match experience_years with
    | some y =>
      if y ≠ 0 ∧ job.experience ≠ "" then
        if pyIn "senior".toList (pyLower job.experience).toList ∧ 5 ≤ y then
          reasons ++ ["Experience level matches senior position"]
        else if pyIn "entry".toList (pyLower job.experience).toList ∧ y ≤ 2 then
          reasons ++ ["Experience level matches entry position"]
        else reasons
      else reasons
    | none => reasons
  let reasons := if preferred_locations ≠ [] then
      match preferred_locations.find?
          (fun p => pyIn (pyLower p).toList (pyLower job.location).toList) with
      | some pref_loc => reasons ++ ["Location preference: " ++ pref_loc]
      | none => reasons
    else reasons
  let reasons := if pyIn "startup".toList (pyLower job.company).toList
      ∧ (preferred_locations.map pyLower).contains "startup" then
      reasons ++ ["Company type preference: Startup"]
    else reasons
  let reasons := if reasons = [] then ["General fit based on job requirements"] else reasons
  String.intercalate "; " reasons

/-- The `JobRecommendation` built inside the loop of
`get_recommendations_for_resume` (lines 225-235) for a job that passed
the threshold, with the given computed score. -/
def make_recommendation (job : Job) (skills : List String)
    (experience_years : Option ℚ) (preferred_locations : List String)
    (score : ℚ) : JobRecommendation :=
  { job := job
    score := score
    rationale := generate_match_rationale job skills experience_years preferred_locations
    skills_match := skills.filter
      fun sk => pyIn (pyLower sk).toList (pyLower job.description).toList
    location_match := preferred_locations.any
      fun loc => pyIn (pyLower loc).toList (pyLower job.location).toList }

/-- The comparison of `recommendations.sort(key=lambda x: x.score,
reverse=True)`: a stable descending sort by score, modelled by the stable
`List.mergeSort` under this relation. -/
def recLE (a b : JobRecommendation) : Bool := b.score ≤ a.score

/-- `get_recommendations_for_resume` (lines 208-245), normal operation.
The job collection (drawn from `get_mock_jobs()` in the source, a
placeholder for the database query) is the `jobs` parameter; the
`resume_text` argument is not read by the ranking logic.  For each job in
collection order: score it, keep it if the score is strictly above 0.3,
then sort stably by descending score and truncate to 10. -/
def get_recommendations_for_resume (skills : List String)
    (experience_years : Option ℚ) (preferred_locations : List String)
    (jobs : List Job) : List JobRecommendation :=
  let recommendations := jobs.foldl (fun acc job =>
    let score := calculate_job_match_score job skills experience_years preferred_locations
    if 3/10 < score then
      acc ++ [make_recommendation job skills experience_years preferred_locations score]
    else acc) []
  (recommendations.mergeSort recLE).take 10

/-- `get_recommendations_for_resume` with its failure behaviour made
explicit: the single `try/except` of lines 216-245 wraps the collection
fetch and the whole scoring loop, and its handler returns `[]`.  The
per-job scoring step is abstracted as an `Except`-valued function so that
an internal exception while scoring one job can be expressed; `jobs` is
`Except`-valued to express a collection-level failure. -/
def get_recommendations_for_resume_exc (scoreE : Job → Except Unit ℚ)
    (skills : List String) (experience_years : Option ℚ)
    (preferred_locations : List String) (jobs : Except Unit (List Job)) :
    List JobRecommendation :=
  let attempt : Except Unit (List JobRecommendation) := do
    let js ← jobs
    let recommendations ← js.foldlM (fun acc job => do
      let score ← scoreE job
      if 3/10 < score then
        pure (acc ++ [make_recommendation job skills experience_years preferred_locations score])
      else pure acc) []
    pure ((recommendations.mergeSort recLE).take 10)
  match attempt with
  | .ok r => r
  | .error _ => []

/-- Modelled from the spec: the per-job failure semantics the spec
ascribes to the ranking loop ("any internal exception during scoring of
an individual job is caught, logged, and that job is skipped (excluded
from results) rather than aborting the whole ranking").  A job whose
scoring raises is dropped and the loop continues; this definition exists
only to be compared against the source behaviour above. -/
def get_recommendations_skip_failures (scoreE : Job → Except Unit ℚ)
    (skills : List String) (experience_years : Option ℚ)
    (preferred_locations : List String) (jobs : List Job) :
    List JobRecommendation :=
  let recommendations := jobs.foldl (fun acc job =>
    match scoreE job with
    | .error _ => acc
    | .ok score =>
      if 3/10 < score then
        acc ++ [make_recommendation job skills experience_years preferred_locations score]
      else acc) []
  (recommendations.mergeSort recLE).take 10

end JobRecommender

namespace JobRecommender

/-- The above-threshold candidates of a ranking call, in collection
order: the jobs scoring strictly above 0.3, each turned into its
recommendation record.  This is the claim-side description of the loop of
`get_recommendations_for_resume`; the ranking theorem proves the source
loop produces exactly this list. -/
def recommendation_candidates (skills : List String) (experience_years : Option ℚ)
    (preferred_locations : List String) (jobs : List Job) : List JobRecommendation :=
  (jobs.filter fun j =>
      3/10 < calculate_job_match_score j skills experience_years preferred_locations).map
    fun j => make_recommendation j skills experience_years preferred_locations
      (calculate_job_match_score j skills experience_years preferred_locations)

end JobRecommender

open JobRecommender

/-! ## Helper lemmas -/

theorem ite_add_nonneg {p : Prop} [Decidable p] {a b : ℚ} (ha : 0 ≤ a) (hb : 0 ≤ b) :
    0 ≤ if p then a + b else a := by
  split
  · exact add_nonneg ha hb
  · exact ha

theorem experience_match_nonneg (y : ℚ) (s : String) :
    0 ≤ calculate_experience_match y s := by
  simp only [calculate_experience_match]
  split
  · exact zero_le_one
  · split
    · norm_num
    · exact le_max_left 0 _

theorem ite3_add_nonneg {p q : Prop} [Decidable p] [Decidable q] {a b c : ℚ}
    (ha : 0 ≤ a) (hb : 0 ≤ b) (hc : 0 ≤ c) :
    0 ≤ if p then a + b else if q then a + c else a := by
  split
  · exact add_nonneg ha hb
  split
  · exact add_nonneg ha hc
  · exact ha

theorem ite_ite_add_nonneg {p q : Prop} [Decidable p] [Decidable q] {a b : ℚ}
    (ha : 0 ≤ a) (hb : 0 ≤ b) :
    0 ≤ if p then (if q then a + b else a) else a := by
  split
  · exact ite_add_nonneg ha hb
  · exact ha

theorem ite_ite3_add_nonneg {p q r : Prop} [Decidable p] [Decidable q] [Decidable r]
    {a b c : ℚ} (ha : 0 ≤ a) (hb : 0 ≤ b) (hc : 0 ≤ c) :
    0 ≤ if p then (if q then a + b else if r then a + c else a) else a := by
  split
  · exact ite3_add_nonneg ha hb hc
  · exact ha

theorem location_match_cases (jl : String) (pl : List String) :
    calculate_location_match jl pl = 0 ∨ calculate_location_match jl pl = 7/10 ∨
      calculate_location_match jl pl = 1 := by
  simp only [calculate_location_match]
  by_cases h1 : (pl.any fun p => pyIn (pyLower p).toList (pyLower jl).toList) = true
  · rw [if_pos h1]
    right; right; rfl
  · rw [if_neg h1]
    by_cases h2 : (pl.any fun p => (pySplitWS (pyLower p).toList).any
        fun w => pyIn w (pyLower jl).toList) = true
    · rw [if_pos h2]
      right; left; rfl
    · rw [if_neg h2]
      by_cases h3 : (pl.contains "remote" && pyIn "remote".toList (pyLower jl).toList) = true
      · rw [if_pos h3]
        right; right; rfl
      · rw [if_neg h3]
        by_cases h4 : (pl.contains "hybrid" && pyIn "hybrid".toList (pyLower jl).toList) = true
        · exfalso
          rw [Bool.and_eq_true] at h4
          apply h1
          rw [List.any_eq_true]
          refine ⟨"hybrid", ?_, ?_⟩
          · simpa using h4.1
          · rw [show pyLower "hybrid" = "hybrid" from by decide]
            exact h4.2
        · rw [if_neg h4]
          left; rfl

theorem location_match_nonneg (jl : String) (pl : List String) :
    0 ≤ calculate_location_match jl pl := by
  rcases location_match_cases jl pl with h | h | h <;> rw [h] <;> norm_num

theorem skill_score_nonneg (skills job_skills : List String) :
    0 ≤ skill_score skills job_skills := by
  simp only [skill_score]
  split
  · exact le_rfl
  · positivity

theorem desc_score_nonneg (skills : List String) (d : String) :
    0 ≤ desc_score skills d := by
  simp only [desc_score]
  split
  · exact le_rfl
  · positivity

theorem match_score_bounds (job : Job) (skills : List String) (ey : Option ℚ)
    (pl : List String) :
    0 ≤ calculate_job_match_score job skills ey pl ∧
      calculate_job_match_score job skills ey pl ≤ 1 := by
  constructor
  · simp only [calculate_job_match_score]
    refine le_min ?_ zero_le_one
    have hs : 0 ≤ skill_score skills job.skills * (4/10) :=
      mul_nonneg (skill_score_nonneg ..) (by norm_num)
    have hl : 0 ≤ calculate_location_match job.location pl * (2/10) :=
      mul_nonneg (location_match_nonneg ..) (by norm_num)
    have hd : 0 ≤ desc_score skills job.description * (1/10) :=
      mul_nonneg (desc_score_nonneg ..) (by norm_num)
    rcases ey with _ | y
    · exact ite_add_nonneg (ite_add_nonneg (ite_add_nonneg le_rfl hs) hl) hd
    · have he : 0 ≤ calculate_experience_match y job.experience * (3/10) :=
        mul_nonneg (experience_match_nonneg ..) (by norm_num)
      exact ite_add_nonneg (ite_add_nonneg (ite_add_nonneg (ite_add_nonneg le_rfl hs) he) hl) hd
  · simp only [calculate_job_match_score]
    exact min_le_right _ _

set_option maxHeartbeats 1000000 in
theorem similarity_bounds (j1 j2 : Job) :
    0 ≤ calculate_job_similarity j1 j2 ∧ calculate_job_similarity j1 j2 ≤ 1 := by
  constructor
  · simp only [calculate_job_similarity]
    refine le_min ?_ zero_le_one
    refine ite_add_nonneg
      (ite_ite3_add_nonneg
        (ite_ite_add_nonneg
          (ite3_add_nonneg le_rfl (by norm_num) (by norm_num))
          (by positivity))
        (by norm_num) (by norm_num))
      (by norm_num)
  · simp only [calculate_job_similarity]
    exact min_le_right _ _

/-! ## Claim theorems -/

/-- C1: for every candidate profile (skills, optional experience-years,
preferred locations) and every job, `calculate_job_match_score` returns a
value in [0,1]; and for every pair of jobs, `calculate_job_similarity`
returns a value in [0,1]. -/
theorem match_and_similarity_scores_in_unit_interval :
    (∀ (job : Job) (skills : List String) (ey : Option ℚ) (pl : List String),
      0 ≤ calculate_job_match_score job skills ey pl ∧
        calculate_job_match_score job skills ey pl ≤ 1) ∧
    (∀ j1 j2 : Job,
      0 ≤ calculate_job_similarity j1 j2 ∧ calculate_job_similarity j1 j2 ≤ 1) :=
  ⟨fun job skills ey pl => match_score_bounds job skills ey pl,
   fun j1 j2 => similarity_bounds j1 j2⟩

/-- C10: for every job location and preference list,
`calculate_location_match` only ever returns 0, 0.7 or 1; in particular
the hybrid fallback value 0.8 is never returned (whenever its guard
holds, the exact-substring rule has already returned 1.0). -/
theorem location_match_range_excludes_hybrid_fallback :
    ∀ (job_location : String) (preferred_locations : List String),
      calculate_location_match job_location preferred_locations = 0 ∨
      calculate_location_match job_location preferred_locations = 7/10 ∨
      calculate_location_match job_location preferred_locations = 1 :=
  fun jl pl => location_match_cases jl pl

/-- C4: with profile skills ["Python", "React"], job skills
["Python", "React", "AWS", "SQL"], and absent experience, location and
description inputs, the final match score is exactly 0.4: the skills
sub-score 2/2 = 1.0 carries its 0.4 weight and the weights of the absent
sub-scores are wasted, not renormalized. -/
theorem match_score_absent_inputs_waste_weight :
    calculate_job_match_score
      { job_id := "mock_1", title := "Senior Software Engineer",
        company := "TechCorp Solutions", location := "Bangalore, Karnataka",
        experience := "", skills := ["Python", "React", "AWS", "SQL"],
        description := "" }
      ["Python", "React"] none [] = 4/10 := by
  have hcount : (["Python", "React"].countP fun sk =>
      ((["Python", "React", "AWS", "SQL"].map pyLower).contains (pyLower sk))) = 2 := by decide
  simp only [calculate_job_match_score, skill_score]
  norm_num [hcount]
  rw [if_pos ⟨by simp, by simp⟩]
  norm_num

theorem experience_match_formula (r : ℚ) (s : String) (hr : 0 ≤ r) :
    calculate_experience_match r s =
      if job_required_years s ≤ r then 1
      else max 0 (1 - (job_required_years s - r) / job_required_years s) := by
  simp only [calculate_experience_match]
  by_cases h : job_required_years s ≤ r
  · rw [if_pos h, if_pos h]
  · rw [if_neg h, if_neg h, if_neg]
    intro h0
    exact h (by rw [h0]; exact hr)

theorem required_years_senior : job_required_years "senior" = 7 := by
  simp only [job_required_years]
  rw [if_neg (by decide), if_neg (by decide), if_pos (by decide)]

theorem experience_match_senior_scenario : calculate_experience_match 2 "senior" = 2/7 := by
  simp only [calculate_experience_match, required_years_senior]
  rw [if_neg (by norm_num), if_neg (by norm_num)]
  rw [show (1:ℚ) - (7 - 2) / 7 = 2/7 by norm_num, max_eq_right (by norm_num : (0:ℚ) ≤ 2/7)]

/-- C5: for every nonnegative candidate experience-years value and every
job experience string, `calculate_experience_match` equals 1 when the
candidate meets the derived required years and
`max 0 (1 - (required - candidate)/required)` otherwise; the derivation
maps the level keywords to 1/3/7/10 years, numeric ranges to their
midpoint (a missing maximum defaulting to min+2), and everything else to
5; in particular candidate 2.0 against "senior" scores 2/7. -/
theorem experience_match_linear_falloff :
    (∀ (r : ℚ) (s : String), 0 ≤ r →
      calculate_experience_match r s =
        if job_required_years s ≤ r then 1
        else max 0 (1 - (job_required_years s - r) / job_required_years s)) ∧
    job_required_years "entry level" = 1 ∧
    job_required_years "junior" = 1 ∧
    job_required_years "mid level" = 3 ∧
    job_required_years "intermediate" = 3 ∧
    job_required_years "senior" = 7 ∧
    job_required_years "lead" = 10 ∧
    job_required_years "principal" = 10 ∧
    job_required_years "3-5 years" = 4 ∧
    job_required_years "5+ years" = 6 ∧
    job_required_years "no signal here" = 5 ∧
    calculate_experience_match 2 "senior" = 2/7 := by
  refine ⟨experience_match_formula, ?_, ?_, ?_, ?_, required_years_senior, ?_, ?_, ?_, ?_, ?_,
    experience_match_senior_scenario⟩
  · simp only [job_required_years]
    rw [if_pos (by decide)]
  · simp only [job_required_years]
    rw [if_pos (by decide)]
  · simp only [job_required_years]
    rw [if_neg (by decide), if_pos (by decide)]
  · simp only [job_required_years]
    rw [if_neg (by decide), if_pos (by decide)]
  · simp only [job_required_years]
    rw [if_neg (by decide), if_neg (by decide), if_neg (by decide), if_pos (by decide)]
  · simp only [job_required_years]
    rw [if_neg (by decide), if_neg (by decide), if_neg (by decide), if_pos (by decide)]
  · simp only [job_required_years]
    rw [if_neg (by decide), if_neg (by decide), if_neg (by decide), if_neg (by decide)]
    rw [show searchYears "3-5 years".toList = some (3, some 5) from by decide]
    norm_num
  · simp only [job_required_years]
    rw [if_neg (by decide), if_neg (by decide), if_neg (by decide), if_neg (by decide)]
    rw [show searchYears "5+ years".toList = some (5, none) from by decide]
    norm_num
  · simp only [job_required_years]
    rw [if_neg (by decide), if_neg (by decide), if_neg (by decide), if_neg (by decide)]
    rw [show searchYears "no signal here".toList = none from by decide]

/-- Witness for C5: the universally quantified part applied at the
concrete scenario input (candidate 2.0 years, job text "senior"), its
nonnegativity hypothesis discharged. -/
theorem experience_match_linear_falloff_witness :
    (0:ℚ) ≤ 2 ∧ calculate_experience_match 2 "senior" =
      (if job_required_years "senior" ≤ 2 then 1
       else max 0 (1 - (job_required_years "senior" - 2) / job_required_years "senior")) :=
  ⟨by norm_num, experience_match_linear_falloff.1 2 "senior" (by norm_num)⟩

/-- C6: for every input text, profile extraction is total (both
extractors are total functions of their input) and the extracted skills
list has length at most 20 while the preferred-locations list has length
at most 5. -/
theorem extraction_bounds : ∀ text : String,
    (extract_skills_from_text text).length ≤ 20 ∧
    (extract_preferred_locations text).length ≤ 5 := by
  intro text
  constructor
  · simp only [extract_skills_from_text, List.length_map, List.length_take]
    exact Nat.min_le_left 20 _
  · simp only [extract_preferred_locations, List.length_map, List.length_take]
    exact Nat.min_le_left 5 _

/-- C7 (failing input): on the text "from delhi 1 from delhi" the `from`
pattern captures "delhi" twice, and since the dedup check compares the
lowercase captures against the stored title-cased entries it never fires,
so `extract_preferred_locations` returns the duplicate list
["Delhi", "Delhi"], contradicting the claim that the result has no
duplicate entries. -/
theorem extract_preferred_locations_duplicates :
    extract_preferred_locations "from delhi 1 from delhi" = ["Delhi", "Delhi"] ∧
    ¬ (extract_preferred_locations "from delhi 1 from delhi").Nodup := by
  constructor
  · decide
  · decide

/-- C8: appending to the profile a skill that is present
(case-insensitively) in the job's skills never decreases the skills
sub-score of `calculate_job_match_score`. -/
theorem skill_score_monotone_under_matching_addition :
    ∀ (skills job_skills : List String) (s : String),
    (job_skills.map pyLower).contains (pyLower s) = true →
    skill_score skills job_skills ≤ skill_score (skills ++ [s]) job_skills := by
  intro skills job_skills s h
  simp only [skill_score]
  have happ : (skills ++ [s]).isEmpty = false := by simp
  by_cases hs : skills.isEmpty
  · rw [if_pos hs, if_neg (by rw [happ]; exact Bool.false_ne_true)]
    positivity
  · rw [if_neg hs, if_neg (by rw [happ]; exact Bool.false_ne_true)]
    have hm : (skills.countP fun sk => (job_skills.map pyLower).contains (pyLower sk))
        ≤ skills.length := List.countP_le_length _
    have hn : 0 < skills.length := by
      cases skills with
      | nil => simp at hs
      | cons a t => simp
    have hstep : ((skills ++ [s]).countP fun sk => (job_skills.map pyLower).contains (pyLower sk))
        = (skills.countP fun sk => (job_skills.map pyLower).contains (pyLower sk)) + 1 := by
      rw [List.countP_append, List.countP_cons, List.countP_nil, if_pos h]
    rw [hstep, List.length_append, List.length_singleton]
    rw [div_le_div_iff₀ (by exact_mod_cast hn) (by positivity)]
    have hmq : ((skills.countP fun sk => (job_skills.map pyLower).contains (pyLower sk)) : ℚ)
        ≤ (skills.length : ℚ) := by exact_mod_cast hm
    push_cast
    nlinarith [hmq]

/-- Witness for C8: adding "python" (present in the job skills
["Python"]) to the profile ["Java"] does not decrease the skills
sub-score. -/
theorem skill_score_monotone_witness :
    ((["Python"].map pyLower).contains (pyLower "python") = true) ∧
    skill_score ["Java"] ["Python"] ≤ skill_score (["Java"] ++ ["python"]) ["Python"] :=
  ⟨by decide, skill_score_monotone_under_matching_addition ["Java"] ["Python"] "python" (by decide)⟩

/-- C9 (counterexample): two jobs identical except for the company name,
but with an empty skills list and an empty experience string, score
0.3 (title) + 0.2 (location) = 0.5, not 1.0: the skills and experience
terms are only added when both fields are truthy. -/
theorem similarity_identical_except_company_not_one :
    calculate_job_similarity
      { job_id := "a", title := "Senior Software Engineer", company := "TechCorp Solutions",
        location := "Bangalore, Karnataka", experience := "", skills := [], description := "d" }
      { job_id := "b", title := "Senior Software Engineer", company := "OtherCorp",
        location := "Bangalore, Karnataka", experience := "", skills := [], description := "d" }
      = 1/2 ∧
    calculate_job_similarity
      { job_id := "a", title := "Senior Software Engineer", company := "TechCorp Solutions",
        location := "Bangalore, Karnataka", experience := "", skills := [], description := "d" }
      { job_id := "b", title := "Senior Software Engineer", company := "OtherCorp",
        location := "Bangalore, Karnataka", experience := "", skills := [], description := "d" }
      ≠ 1 := by
  have h : calculate_job_similarity
      { job_id := "a", title := "Senior Software Engineer", company := "TechCorp Solutions",
        location := "Bangalore, Karnataka", experience := "", skills := [], description := "d" }
      { job_id := "b", title := "Senior Software Engineer", company := "OtherCorp",
        location := "Bangalore, Karnataka", experience := "", skills := [], description := "d" }
      = 1/2 := by
    simp only [calculate_job_similarity]
    norm_num
  exact ⟨h, by rw [h]; norm_num⟩

/-- C9 (amended): for every pair of job postings identical except for the
company name, *provided* the shared skills list is non-empty with no
case-insensitive duplicates and the shared experience string is
non-empty, `calculate_job_similarity` returns
0.3 + 0.3 + 0.2 + 0.2 = 1.0, capped at 1.0. -/
theorem similarity_identical_except_company :
    ∀ (id1 id2 t c1 c2 loc exp d1 d2 : String) (sk : List String),
    sk ≠ [] → (sk.map pyLower).Nodup → exp ≠ "" →
    calculate_job_similarity
      { job_id := id1, title := t, company := c1, location := loc,
        experience := exp, skills := sk, description := d1 }
      { job_id := id2, title := t, company := c2, location := loc,
        experience := exp, skills := sk, description := d2 } = 1 := by
  intro id1 id2 t c1 c2 loc exp d1 d2 sk hsk hnd hexp
  have hlen : ((sk.length : Nat) : ℚ) ≠ 0 := by
    have : 0 < sk.length := List.length_pos.mpr hsk
    positivity
  have hfilter : ((sk.map pyLower).dedup.filter fun s => (sk.map pyLower).contains s)
      = sk.map pyLower := by
    rw [List.dedup_eq_self.mpr hnd]
    apply List.filter_eq_self.mpr
    intro a ha
    simpa using ha
  have hmapne : sk.map pyLower ≠ [] := by simp [hsk]
  simp only [calculate_job_similarity, hfilter, List.length_map, Nat.max_self, if_true]
  rw [if_pos ⟨hexp, hexp⟩, if_pos ⟨hsk, hsk⟩, if_pos hmapne, div_self hlen]
  norm_num

/-- Witness for the amended C9: the mock job "Senior Software Engineer"
profile with skills ["Python", "SQL"] and experience "5-8 years",
duplicated under two different companies, scores exactly 1. -/
theorem similarity_identical_except_company_witness :
    (["Python", "SQL"] : List String) ≠ [] ∧
    ((["Python", "SQL"] : List String).map pyLower).Nodup ∧
    ("5-8 years" : String) ≠ "" ∧
    calculate_job_similarity
      { job_id := "a", title := "Senior Software Engineer", company := "TechCorp Solutions",
        location := "Bangalore, Karnataka", experience := "5-8 years",
        skills := ["Python", "SQL"], description := "d" }
      { job_id := "b", title := "Senior Software Engineer", company := "OtherCorp",
        location := "Bangalore, Karnataka", experience := "5-8 years",
        skills := ["Python", "SQL"], description := "d" } = 1 :=
  ⟨by decide, by decide, by decide,
    similarity_identical_except_company "a" "b" "Senior Software Engineer"
      "TechCorp Solutions" "OtherCorp" "Bangalore, Karnataka" "5-8 years" "d" "d"
      ["Python", "SQL"] (by decide) (by decide) (by decide)⟩

theorem recLE_trans : ∀ a b c : JobRecommendation,
    recLE a b → recLE b c → recLE a c := by
  intro a b c h1 h2
  simp only [recLE, decide_eq_true_eq] at h1 h2 ⊢
  exact le_trans h2 h1

theorem recLE_total : ∀ a b : JobRecommendation, recLE a b || recLE b a := by
  intro a b
  simp only [recLE, Bool.or_eq_true, decide_eq_true_eq]
  exact le_total b.score a.score

theorem rank_loop_eq (skills : List String) (ey : Option ℚ) (pl : List String) :
    ∀ (jobs : List Job) (acc : List JobRecommendation),
    jobs.foldl (fun acc job =>
      if 3/10 < calculate_job_match_score job skills ey pl then
        acc ++ [make_recommendation job skills ey pl (calculate_job_match_score job skills ey pl)]
      else acc) acc
    = acc ++ recommendation_candidates skills ey pl jobs := by
  intro jobs
  induction jobs with
  | nil => intro acc; simp [recommendation_candidates]
  | cons j t ih =>
    intro acc
    simp only [List.foldl_cons, recommendation_candidates, List.filter_cons]
    by_cases h : 3/10 < calculate_job_match_score j skills ey pl
    · rw [if_pos h, ih (acc ++ [make_recommendation j skills ey pl
        (calculate_job_match_score j skills ey pl)])]
      simp only [recommendation_candidates]
      rw [if_pos (by simpa using h)]
      simp [List.append_assoc]
    · rw [if_neg h, ih acc]
      simp only [recommendation_candidates]
      rw [if_neg (by simpa using h)]

theorem rank_eq (skills : List String) (ey : Option ℚ) (pl : List String) (jobs : List Job) :
    get_recommendations_for_resume skills ey pl jobs
      = ((recommendation_candidates skills ey pl jobs).mergeSort recLE).take 10 := by
  simp only [get_recommendations_for_resume]
  rw [rank_loop_eq skills ey pl jobs []]
  rw [List.nil_append]

theorem rank_sorted (skills : List String) (ey : Option ℚ) (pl : List String) (jobs : List Job) :
    (get_recommendations_for_resume skills ey pl jobs).Pairwise
      (fun a b => b.score ≤ a.score) := by
  rw [rank_eq]
  have h := @List.sorted_mergeSort JobRecommendation recLE recLE_trans
    (by intro a b; exact recLE_total a b)
    (recommendation_candidates skills ey pl jobs)
  have h2 := h.sublist (List.take_sublist 10 _)
  exact h2.imp (by intro a b hab; simpa [recLE, decide_eq_true_eq] using hab)

theorem rank_mem_threshold (skills : List String) (ey : Option ℚ) (pl : List String)
    (jobs : List Job) :
    ∀ r ∈ get_recommendations_for_resume skills ey pl jobs, 3/10 < r.score := by
  rw [rank_eq]
  intro r hr
  have h1 : r ∈ (recommendation_candidates skills ey pl jobs).mergeSort recLE :=
    List.mem_of_mem_take hr
  have h2 : r ∈ recommendation_candidates skills ey pl jobs :=
    (List.mergeSort_perm _ recLE).mem_iff.mp h1
  simp only [recommendation_candidates, List.mem_map, List.mem_filter] at h2
  obtain ⟨j, ⟨_, hj⟩, rfl⟩ := h2
  simpa using hj

theorem rank_length (skills : List String) (ey : Option ℚ) (pl : List String) (jobs : List Job) :
    (get_recommendations_for_resume skills ey pl jobs).length ≤ 10 := by
  rw [rank_eq]
  exact List.length_take_le 10 _

theorem rank_stable_ties (skills : List String) (ey : Option ℚ) (pl : List String)
    (jobs : List Job) (q : ℚ) :
    ((recommendation_candidates skills ey pl jobs).mergeSort recLE).filter
        (fun r => r.score = q)
      = (recommendation_candidates skills ey pl jobs).filter (fun r => r.score = q) := by
  set cands := recommendation_candidates skills ey pl jobs with hc
  have hmemq : ∀ r ∈ cands.filter (fun r => r.score = q), r.score = q := by
    intro r hr
    have := (List.mem_filter.mp hr).2
    simpa using this
  have hpair : (cands.filter (fun r => r.score = q)).Pairwise (fun a b => recLE a b) := by
    apply List.pairwise_of_forall_mem_list
    intro a ha b hb
    simp only [recLE, decide_eq_true_eq]
    rw [hmemq a ha, hmemq b hb]
  have hsub : List.Sublist (cands.filter (fun r => r.score = q)) (cands.mergeSort recLE) :=
    List.sublist_mergeSort recLE_trans (by intro a b; exact recLE_total a b) hpair
      (List.filter_sublist cands)
  have hself : (cands.filter (fun r => r.score = q)).filter (fun r => r.score = q)
      = cands.filter (fun r => r.score = q) :=
    List.filter_eq_self.mpr (fun a ha => by simpa using hmemq a ha)
  have hsub2 : List.Sublist (cands.filter (fun r => r.score = q))
      ((cands.mergeSort recLE).filter (fun r => r.score = q)) := by
    rw [← hself]
    exact hsub.filter _
  have hperm : List.Perm ((cands.mergeSort recLE).filter (fun r => r.score = q))
      (cands.filter (fun r => r.score = q)) :=
    (List.mergeSort_perm cands recLE).filter _
  exact (hsub2.eq_of_length hperm.length_eq.symm).symm

/-- C3: the ranking returned by `get_recommendations_for_resume` is
exactly the stable descending sort of the above-threshold candidates
truncated to 10: it equals `take 10` of `mergeSort` over the candidates,
the sorted list is a permutation of the candidates, every returned entry
scores strictly above 0.3, the result is sorted descending by score, its
length is at most 10, and ties (equal scores) keep their original
collection order (restricting the sorted list to any fixed score yields
the candidates with that score in their original order). -/
theorem ranking_filters_sorts_truncates :
    ∀ (skills : List String) (ey : Option ℚ) (pl : List String) (jobs : List Job),
    get_recommendations_for_resume skills ey pl jobs
        = ((recommendation_candidates skills ey pl jobs).mergeSort recLE).take 10 ∧
    List.Perm ((recommendation_candidates skills ey pl jobs).mergeSort recLE)
      (recommendation_candidates skills ey pl jobs) ∧
    (∀ r ∈ get_recommendations_for_resume skills ey pl jobs, 3/10 < r.score) ∧
    (get_recommendations_for_resume skills ey pl jobs).Pairwise
      (fun a b => b.score ≤ a.score) ∧
    (get_recommendations_for_resume skills ey pl jobs).length ≤ 10 ∧
    (∀ q : ℚ, ((recommendation_candidates skills ey pl jobs).mergeSort recLE).filter
          (fun r => r.score = q)
        = (recommendation_candidates skills ey pl jobs).filter (fun r => r.score = q)) :=
  fun skills ey pl jobs =>
    ⟨rank_eq skills ey pl jobs, List.mergeSort_perm _ recLE,
     rank_mem_threshold skills ey pl jobs, rank_sorted skills ey pl jobs,
     rank_length skills ey pl jobs, fun q => rank_stable_ties skills ey pl jobs q⟩

/-- Witness for C3: on a one-job collection whose job scores 0.4, the
produced recommendation is a member of the output and the membership
implication of the theorem yields its score is above the threshold. -/
theorem ranking_filters_sorts_truncates_witness :
    make_recommendation
        { job_id := "w1", title := "T", company := "C", location := "Remote",
          experience := "", skills := ["Python"], description := "" }
        ["Python"] none []
        (calculate_job_match_score
          { job_id := "w1", title := "T", company := "C", location := "Remote",
            experience := "", skills := ["Python"], description := "" }
          ["Python"] none [])
      ∈ get_recommendations_for_resume ["Python"] none []
        [{ job_id := "w1", title := "T", company := "C", location := "Remote",
           experience := "", skills := ["Python"], description := "" }] ∧
    3/10 < (make_recommendation
        { job_id := "w1", title := "T", company := "C", location := "Remote",
          experience := "", skills := ["Python"], description := "" }
        ["Python"] none []
        (calculate_job_match_score
          { job_id := "w1", title := "T", company := "C", location := "Remote",
            experience := "", skills := ["Python"], description := "" }
          ["Python"] none [])).score := by
  have hscore : calculate_job_match_score
      { job_id := "w1", title := "T", company := "C", location := "Remote",
        experience := "", skills := ["Python"], description := "" }
      ["Python"] none [] = 2/5 := by
    have hcount : ((["Python"] : List String).countP fun sk =>
        ((["Python"] : List String).map pyLower).contains (pyLower sk)) = 1 := by decide
    simp only [calculate_job_match_score, skill_score]
    norm_num [hcount]
  have hmem : make_recommendation
      { job_id := "w1", title := "T", company := "C", location := "Remote",
        experience := "", skills := ["Python"], description := "" }
      ["Python"] none []
      (calculate_job_match_score
        { job_id := "w1", title := "T", company := "C", location := "Remote",
          experience := "", skills := ["Python"], description := "" }
        ["Python"] none [])
      ∈ get_recommendations_for_resume ["Python"] none []
        [{ job_id := "w1", title := "T", company := "C", location := "Remote",
           experience := "", skills := ["Python"], description := "" }] := by
    simp only [get_recommendations_for_resume, List.foldl_cons, List.foldl_nil]
    rw [if_pos (by rw [hscore]; norm_num)]
    simp [List.mergeSort_singleton]
  exact ⟨hmem, (ranking_filters_sorts_truncates ["Python"] none []
    [{ job_id := "w1", title := "T", company := "C", location := "Remote",
       experience := "", skills := ["Python"], description := "" }]).2.2.1 _ hmem⟩

theorem exceptOkBind {ε α β : Type} (a : α) (f : α → Except ε β) :
    (Except.ok a : Except ε α) >>= f = f a := rfl

theorem exceptPureBind {ε α β : Type} (a : α) (f : α → Except ε β) :
    (pure a : Except ε α) >>= f = f a := rfl

theorem foldlM_scoring_error (scoreE : Job → Except Unit ℚ) (skills : List String)
    (ey : Option ℚ) (pl : List String) :
    ∀ (jobs : List Job) (acc : List JobRecommendation) (j : Job), j ∈ jobs →
    scoreE j = .error () →
    (jobs.foldlM (fun acc job => do
      let score ← scoreE job
      if 3/10 < score then
        pure (acc ++ [make_recommendation job skills ey pl score])
      else pure acc) acc) = (.error () : Except Unit (List JobRecommendation)) := by
  intro jobs
  induction jobs with
  | nil =>
    intro acc j hj _
    exact absurd hj (List.not_mem_nil j)
  | cons a t ih =>
    intro acc j hj herr
    rw [List.foldlM_cons]
    cases hsa : scoreE a with
    | error e =>
      cases e
      rfl
    | ok v =>
      rcases List.mem_cons.mp hj with rfl | hmem
      · rw [hsa] at herr
        cases herr
      · simp only [exceptOkBind]
        by_cases hv : (3:ℚ)/10 < v
        · rw [if_pos hv]
          simp only [exceptPureBind]
          exact ih _ j hmem herr
        · rw [if_neg hv]
          simp only [exceptPureBind]
          exact ih _ j hmem herr

theorem exc_empty_of_scoring_error :
    ∀ (scoreE : Job → Except Unit ℚ) (skills : List String) (ey : Option ℚ)
      (pl : List String) (jobs : List Job) (j : Job), j ∈ jobs → scoreE j = .error () →
    get_recommendations_for_resume_exc scoreE skills ey pl (.ok jobs) = [] := by
  intro scoreE skills ey pl jobs j hj herr
  simp only [get_recommendations_for_resume_exc, exceptOkBind]
  rw [foldlM_scoring_error scoreE skills ey pl jobs [] j hj herr]
  rfl

theorem exc_empty_on_collection_failure :
    ∀ (scoreE : Job → Except Unit ℚ) (skills : List String) (ey : Option ℚ)
      (pl : List String),
    get_recommendations_for_resume_exc scoreE skills ey pl (.error ()) = [] :=
  fun _ _ _ _ => rfl

/-- C2 (counterexample): with a scorer that succeeds on the first job
(score 0.9) and raises on the second, the source's ranking returns the
empty list, while the per-job-skip semantics claimed by the spec would
return the surviving first recommendation: the `try/except` wraps the
whole loop, so one failing job does not merely get skipped. -/
theorem scoring_exception_empties_ranking_counterexample :
    get_recommendations_for_resume_exc
      (fun j => if j.job_id = "j2" then .error () else .ok (9/10)) [] none []
      (.ok
        [{ job_id := "j1", title := "T1", company := "C1", location := "L",
           experience := "E", skills := [], description := "D" },
         { job_id := "j2", title := "T2", company := "C2", location := "L",
           experience := "E", skills := [], description := "D" }]) = [] ∧
    get_recommendations_skip_failures
      (fun j => if j.job_id = "j2" then .error () else .ok (9/10)) [] none []
      [{ job_id := "j1", title := "T1", company := "C1", location := "L",
         experience := "E", skills := [], description := "D" },
       { job_id := "j2", title := "T2", company := "C2", location := "L",
         experience := "E", skills := [], description := "D" }] ≠ [] := by
  constructor
  · exact exc_empty_of_scoring_error _ [] none [] _
      { job_id := "j2", title := "T2", company := "C2", location := "L",
        experience := "E", skills := [], description := "D" }
      (by simp) rfl
  · simp only [get_recommendations_skip_failures, List.foldl_cons, List.foldl_nil]
    have hne : ¬("j1":String) = "j2" := by decide
    have heq : ("j2":String) = "j2" := rfl
    simp only [hne, heq, if_false, if_true, ite_true, ite_false]
    rw [if_pos (by norm_num : (3:ℚ)/10 < 9/10)]
    simp [List.mergeSort_singleton]

/-- C2 (amended): an internal exception raised while scoring *any*
individual job aborts the whole ranking and yields the empty
recommendation list (the `try/except` of
`get_recommendations_for_resume` wraps the entire scoring loop); a
collection-level failure also yields the empty list.  There is no
per-job skip. -/
theorem scoring_exception_empties_ranking :
    (∀ (scoreE : Job → Except Unit ℚ) (skills : List String) (ey : Option ℚ)
       (pl : List String) (jobs : List Job) (j : Job), j ∈ jobs → scoreE j = .error () →
       get_recommendations_for_resume_exc scoreE skills ey pl (.ok jobs) = []) ∧
    (∀ (scoreE : Job → Except Unit ℚ) (skills : List String) (ey : Option ℚ)
       (pl : List String),
       get_recommendations_for_resume_exc scoreE skills ey pl (.error ()) = []) :=
  ⟨exc_empty_of_scoring_error, exc_empty_on_collection_failure⟩

/-- Witness for the amended C2: the theorem applied to a concrete
two-job collection whose second job's scoring raises. -/
theorem scoring_exception_empties_ranking_witness :
    (({ job_id := "j2", title := "T2", company := "C2", location := "L",
        experience := "E", skills := [], description := "D" } : Job) ∈
      [({ job_id := "j1", title := "T1", company := "C1", location := "L",
          experience := "E", skills := [], description := "D" } : Job),
       { job_id := "j2", title := "T2", company := "C2", location := "L",
         experience := "E", skills := [], description := "D" }]) ∧
    ((fun j : Job => if j.job_id = "j2" then (.error () : Except Unit ℚ) else .ok (9/10))
      { job_id := "j2", title := "T2", company := "C2", location := "L",
        experience := "E", skills := [], description := "D" } = .error ()) ∧
    get_recommendations_for_resume_exc
      (fun j => if j.job_id = "j2" then .error () else .ok (9/10)) ["Python"] none []
      (.ok
        [{ job_id := "j1", title := "T1", company := "C1", location := "L",
           experience := "E", skills := [], description := "D" },
         { job_id := "j2", title := "T2", company := "C2", location := "L",
           experience := "E", skills := [], description := "D" }]) = [] :=
  ⟨by simp, rfl,
    scoring_exception_empties_ranking.1 _ ["Python"] none [] _
      { job_id := "j2", title := "T2", company := "C2", location := "L",
        experience := "E", skills := [], description := "D" }
      (by simp) rfl⟩
